import Mathlib

/-!
Verification of the CHATBOXXER server (Hono/Deno edge function over a
key-value store).  The definitions below are a shallow embedding of the
route handlers in the server source file: each HTTP handler becomes a pure
Lean function from a `Store` (the KV state) and the request data to a
result record carrying the HTTP status, the new store, and the response
payload.  Timestamps (JS `Date.now()`) and generated group ids are passed
in as parameters; the external identity provider (Supabase auth) is
modelled by passing the token-resolved caller identity (id, email) as
parameters and, where a provider call can fail, a boolean outcome flag.
-/

namespace Chatboxxer

/-- User profile record stored under key `user:(id)`. -/
structure UserRec where
  id : String
  email : String
  name : String
deriving Repr, DecidableEq

/-- Message record stored under key `message:(id)`.  `toUserId` and
`groupId` are `none` when the JS field is `null`. -/
structure Message where
  id : String
  fromUserId : String
  toUserId : Option String
  groupId : Option String
  text : String
  timestamp : Nat
deriving Repr, DecidableEq

/-- Group record stored under key `group:(id)`. -/
structure Group where
  id : String
  name : String
  memberIds : List String
  createdBy : String
  createdAt : Nat
deriving Repr, DecidableEq

/-- Modelled from the spec: the key-value collaborator (`kv_store.tsx`,
imported by the server but not part of the source tree) is "a flat
string-keyed durable map supporting get, set, delete, and prefix-scan".
Since every handler namespaces its keys with a fixed prefix
(`user:` , `message:` , `group:` , `conversations:` , `user_groups:`) and
always uses the record's own id as the key suffix, the store is embedded
as one list per prefix, each record standing for the KV entry keyed by its
id; prefix-scan (`getByPrefix`) returns the values of one such list.
`conversations:(uid)` holds `userIds` (DM peer ids) and
`user_groups:(uid)` holds `groupIds`, both embedded as association lists
from user id to the stored id list. -/
structure Store where
  users : List UserRec
  messages : List Message
  groups : List Group
  conversations : List (String × List String)
  userGroups : List (String × List String)
deriving Repr, DecidableEq

/-- kv.get on an association-list keyspace: `none` models a JS `null`
result for a missing key. -/
def findEntry (l : List (String × List String)) (k : String) :
    Option (List String) :=
  (l.find? (fun p => p.fst == k)).map Prod.snd

/-- kv.get followed by the handlers' `|| { ...: [] }` default. -/
def getEntryD (l : List (String × List String)) (k : String) : List String :=
  (findEntry l k).getD []

/-- kv.set on an association-list keyspace: overwrite in place when the key
exists, append otherwise. -/
def setEntry (l : List (String × List String)) (k : String)
    (v : List String) : List (String × List String) :=
  if l.any (fun p => p.fst == k) then
    l.map (fun p => if p.fst == k then (k, v) else p)
  else
    l ++ [(k, v)]

/-- kv.get for `user:(id)`. -/
def findUser (s : Store) (uid : String) : Option UserRec :=
  s.users.find? (fun u => u.id == uid)

/-- kv.get for `group:(id)`. -/
def findGroup (s : Store) (gid : String) : Option Group :=
  s.groups.find? (fun g => g.id == gid)

/-- kv.set for `message:(id)`: a colliding derived id silently overwrites
the existing record, otherwise the message is appended. -/
def setMessage (ms : List Message) (m : Message) : List Message :=
  if ms.any (fun x => x.id == m.id) then
    ms.map (fun x => if x.id == m.id then m else x)
  else
    ms ++ [m]

/-- kv.set for `group:(id)`. -/
def setGroup (gs : List Group) (g : Group) : List Group :=
  if gs.any (fun x => x.id == g.id) then
    gs.map (fun x => if x.id == g.id then g else x)
  else
    gs ++ [g]

/-- The fixed administrator allow-list (`ADMIN_EMAILS`). -/
def ADMIN_EMAILS : List String := ["lichengantv@gmail.com"]

/-- JS `email.toLowerCase()`: lower-case every character. -/
def strToLower (s : String) : String := ⟨s.data.map Char.toLower⟩

/-- The `isAdmin(email)` helper: membership of the lower-cased email in
the allow-list. -/
def isAdmin (email : String) : Bool :=
  ADMIN_EMAILS.contains (strToLower email)

/-- Ascending timestamp order used by the message-list handlers
(JS comparator `a.timestamp - b.timestamp`). -/
def tsLe (a b : Message) : Prop := a.timestamp ≤ b.timestamp

instance : DecidableRel tsLe := fun a b => Nat.decLe a.timestamp b.timestamp

instance : IsTotal Message tsLe :=
  ⟨fun a b => Nat.le_total a.timestamp b.timestamp⟩

instance : IsTrans Message tsLe :=
  ⟨fun _ _ _ hab hbc => Nat.le_trans hab hbc⟩

/-- Descending timestamp order (JS comparator `b.timestamp - a.timestamp`)
used when picking the latest message of a conversation. -/
def tsGe (a b : Message) : Prop := b.timestamp ≤ a.timestamp

instance : DecidableRel tsGe := fun a b => Nat.decLe b.timestamp a.timestamp

/-- JS `Array.prototype.sort` with a consistent comparator is a stable
sort; it is embedded as Mathlib's stable `insertionSort`. -/
def sortAsc (ms : List Message) : List Message := ms.insertionSort tsLe

/-- Stable sort by descending timestamp. -/
def sortDesc (ms : List Message) : List Message := ms.insertionSort tsGe

/-- Result of POST send-message: HTTP status, updated store, and the
message of the success response (`none` on failure). -/
structure SendOut where
  status : Nat
  store : Store
  msg : Option Message
deriving Repr, DecidableEq

/-- POST send-message handler for an authenticated caller `uid`.
Body fields `toUserId` and `groupId` are strings with `""` standing for a
missing/empty (JS-falsy) field, matching every use in the handler
(`!x`, `x || y`, `x || null`). -/
def sendMessage (s : Store) (uid toUserId groupId text : String)
    (ts : Nat) : SendOut :=
  if ((toUserId == "" && groupId == "") || text == "") then
    ⟨400, s, none⟩
  else
    let messageId :=
      uid ++ ":" ++ (if groupId != "" then groupId else toUserId) ++ ":"
        ++ toString ts
    let message : Message :=
      { id := messageId
        fromUserId := uid
        toUserId := if toUserId == "" then none else some toUserId
        groupId := if groupId == "" then none else some groupId
        text := text
        timestamp := ts }
    let s1 : Store := { s with messages := setMessage s.messages message }
    if groupId != "" then
      ⟨200, s1, some message⟩
    else
      -- both conversation entries are read before either write
      let senderConv := getEntryD s1.conversations uid
      let receiverConv := getEntryD s1.conversations toUserId
      let s2 : Store :=
        if toUserId ∈ senderConv then s1
        else { s1 with
          conversations := setEntry s1.conversations uid
            (senderConv ++ [toUserId]) }
      let s3 : Store :=
        if uid ∈ receiverConv then s2
        else { s2 with
          conversations := setEntry s2.conversations toUserId
            (receiverConv ++ [uid]) }
      ⟨200, s3, some message⟩

/-- The DM filter of the messages handler: retains records matching either
direction between the caller and the target. -/
def dmFilter (uid targetId : String) (m : Message) : Bool :=
  (m.fromUserId == uid && m.toUserId == some targetId) ||
    (m.fromUserId == targetId && m.toUserId == some uid)

/-- JS `targetId.startsWith('group_')`: the pattern is a prefix of the
character sequence of the string. -/
def strStartsWith (s p : String) : Bool := p.data.isPrefixOf s.data

/-- GET messages/:targetId handler body for an authenticated caller `uid`:
a target id starting with `group_` routes to the group filter (on
`m.groupId` only), anything else to the two-direction DM filter; both
results are sorted ascending by timestamp. -/
def getMessages (s : Store) (uid targetId : String) : List Message :=
  if strStartsWith targetId "group_" then
    sortAsc (s.messages.filter (fun m => m.groupId == some targetId))
  else
    sortAsc (s.messages.filter (dmFilter uid targetId))

/-- One entry of the GET conversations response: the handler builds a
different object shape for DM and group conversations. -/
inductive ConvEntry where
  | dm (id name email latestMessage : String) (timestamp : Nat)
  | group (id name : String) (memberCount : Nat) (latestMessage : String)
      (timestamp : Nat)
deriving Repr, DecidableEq

/-- Recency key of a conversation entry. -/
def ConvEntry.ts : ConvEntry → Nat
  | .dm _ _ _ _ t => t
  | .group _ _ _ _ t => t

/-- Descending recency order for the final conversations sort
(JS comparator `b.timestamp - a.timestamp`). -/
def convGe (a b : ConvEntry) : Prop := b.ts ≤ a.ts

instance : DecidableRel convGe := fun a b => Nat.decLe b.ts a.ts

/-- GET conversations handler for an authenticated caller `uid`: a DM
entry per indexed peer whose profile still exists, a group entry per
indexed group that still exists, each annotated with the latest message
(empty text and timestamp 0 when there is none), the union sorted by
descending recency. -/
def getConversations (s : Store) (uid : String) : List ConvEntry :=
  let userIds := getEntryD s.conversations uid
  let dms := userIds.filterMap (fun userId =>
    match findUser s userId with
    | none => none
    | some userData =>
      let userMessages := sortDesc (s.messages.filter (dmFilter uid userId))
      let latest := userMessages.head?
      some (ConvEntry.dm userId userData.name userData.email
        ((latest.map Message.text).getD "")
        ((latest.map Message.timestamp).getD 0)))
  let groupIds := getEntryD s.userGroups uid
  let gs := groupIds.filterMap (fun groupId =>
    match findGroup s groupId with
    | none => none
    | some groupData =>
      let groupMessages :=
        sortDesc (s.messages.filter (fun m => m.groupId == some groupId))
      let latest := groupMessages.head?
      some (ConvEntry.group groupId groupData.name
        groupData.memberIds.length
        ((latest.map Message.text).getD "")
        ((latest.map Message.timestamp).getD 0)))
  (dms ++ gs).insertionSort convGe

/-- Result of POST create-group: HTTP status, updated store, and the group
of the success response. -/
structure CreateGroupOut where
  status : Nat
  store : Store
  group : Option Group
deriving Repr, DecidableEq

/-- POST create-group handler for an authenticated caller `uid`.  The
generated id (`group_` + Date.now + random suffix) and the timestamp are
parameters.  `""` as name models a missing/empty (JS-falsy) name; the
body's memberIds is always an array here, so the Array.isArray guard is
vacuous. -/
def createGroup (s : Store) (uid name : String) (memberIds : List String)
    (gid : String) (ts : Nat) : CreateGroupOut :=
  if name == "" then ⟨400, s, none⟩
  else
    let allMemberIds := uid :: memberIds.filter (fun i => i != uid)
    let group : Group :=
      { id := gid, name := name, memberIds := allMemberIds,
        createdBy := uid, createdAt := ts }
    let s1 : Store := { s with groups := setGroup s.groups group }
    let s2 := allMemberIds.foldl (fun st memberId =>
      let memberGroups := getEntryD st.userGroups memberId
      if gid ∈ memberGroups then st
      else { st with
        userGroups := setEntry st.userGroups memberId
          (memberGroups ++ [gid]) }) s1
    ⟨200, s2, some group⟩

/-- The KV cascade shared verbatim by DELETE admin/user/:userId and
DELETE user/account (after their permission checks and the external auth
deletion): delete the profile, the conversation index entry and the
group-index entry of `uid`, strip `uid` from every group's member list,
then delete every message whose sender or direct recipient is `uid`. -/
def cascadeDeleteUser (s : Store) (uid : String) : Store :=
  let s1 : Store := { s with users := s.users.filter (fun u => u.id != uid) }
  let s2 : Store :=
    { s1 with conversations := s1.conversations.filter (fun p => p.fst != uid) }
  let s3 : Store :=
    { s2 with userGroups := s2.userGroups.filter (fun p => p.fst != uid) }
  let s4 : Store := { s3 with groups := s3.groups.map (fun g =>
    if uid ∈ g.memberIds then
      { g with memberIds := g.memberIds.filter (fun i => i != uid) }
    else g) }
  { s4 with messages := s4.messages.filter (fun m =>
    !(m.fromUserId == uid || m.toUserId == some uid)) }

/-- Result of a delete endpoint: HTTP status and updated store. -/
structure DeleteOut where
  status : Nat
  store : Store
deriving Repr, DecidableEq

/-- DELETE admin/user/:userId handler.  The caller identity
(`callerId`, `callerEmail`) is the token-resolved user; the external
Supabase auth deletion is modelled as succeeding (its failure path only
returns the provider error with status 400 before any KV write). -/
def adminDeleteUser (s : Store) (callerId callerEmail uid : String) :
    DeleteOut :=
  if !(isAdmin callerEmail) then ⟨403, s⟩
  else if uid == callerId then ⟨400, s⟩
  else
    match findUser s uid with
    | none => ⟨404, s⟩
    | some userData =>
      if isAdmin userData.email then ⟨400, s⟩
      else ⟨200, cascadeDeleteUser s uid⟩

/-- DELETE user/account handler for an authenticated caller `uid`:
`password` is the body field (`""` models a missing/falsy field) and
`passwordOk` the outcome of the re-authentication sign-in call against the
external identity provider. -/
def deleteAccount (s : Store) (uid password : String)
    (passwordOk : Bool) : DeleteOut :=
  if password == "" then ⟨400, s⟩
  else if !passwordOk then ⟨400, s⟩
  else ⟨200, cascadeDeleteUser s uid⟩

/-- One iteration of the member loop of DELETE admin/group/:groupId:
filter the group id out of this member's group-index entry, skipping
members whose entry is missing. -/
def removeGroupFromMember (gid : String) (st : Store) (memberId : String) :
    Store :=
  match findEntry st.userGroups memberId with
  | none => st
  | some memberGroups =>
    { st with userGroups :=
        (setEntry st.userGroups memberId
          (memberGroups.filter (fun i => i != gid))) }

/-- DELETE admin/group/:groupId handler: delete the group record, filter
the group id out of every member's group-index entry (skipping members
with no entry), then delete every message with that groupId. -/
def adminDeleteGroup (s : Store) (callerEmail gid : String) : DeleteOut :=
  if !(isAdmin callerEmail) then ⟨403, s⟩
  else
    match findGroup s gid with
    | none => ⟨404, s⟩
    | some groupData =>
      let s1 : Store := { s with groups := s.groups.filter (fun g => g.id != gid) }
      let s2 := groupData.memberIds.foldl (removeGroupFromMember gid) s1
      let s3 : Store :=
        { s2 with messages := s2.messages.filter (fun m =>
            m.groupId != some gid) }
      ⟨200, s3⟩

/-- Response of POST reset-password: HTTP status, success flag, and the
body message. -/
structure ResetOut where
  status : Nat
  success : Bool
  message : String
deriving Repr, DecidableEq

/-- POST reset-password handler: `providerError` models whether the
external `resetPasswordForEmail` call reported an error (in particular
when no account exists for the email); both provider outcomes return the
same generic success body. -/
def resetPassword (email : String) (providerError : Bool) : ResetOut :=
  if email == "" then ⟨400, false, "Email is required"⟩
  else if providerError then
    ⟨200, true, "If an account exists, a password reset email has been sent"⟩
  else
    ⟨200, true, "If an account exists, a password reset email has been sent"⟩

/-! Concrete records used by witnesses and counterexamples. -/

def aliceRec : UserRec := ⟨"u1", "u1@example.com", "Alice"⟩

def bobRec : UserRec := ⟨"u2", "u2@example.com", "Bob"⟩

/-- Two registered users, no messages, no groups, no index entries. -/
def storeAB : Store := ⟨[aliceRec, bobRec], [], [], [], []⟩

def msgHi : Message := ⟨"u1:u2:1000", "u1", some "u2", none, "hi", 1000⟩

/-- A group message sent by u1. -/
def gmsgU1 : Message := ⟨"u1:group_9:5", "u1", none, some "group_9", "yo", 5⟩

/-- One user u1 whose only message is the group message `gmsgU1`. -/
def storeGm : Store := ⟨[aliceRec], [gmsgU1], [], [], []⟩

/-! Helper lemmas. -/

theorem mem_setMessage_self (ms : List Message) (m : Message) :
    m ∈ setMessage ms m := by
  unfold setMessage
  split
  · rename_i h
    rcases List.any_eq_true.mp h with ⟨x, hx, hxe⟩
    exact List.mem_map.mpr ⟨x, hx, by simp [hxe]⟩
  · simp

/-- C4: sending `(toUserId := "u2", text := "hi")` as u1 at timestamp 1000
into a store with no messages yields the message with derived id
`u1:u2:1000`, sender u1, recipient u2, no group id and timestamp 1000; the
messages listing for target u2 as caller u1 then returns exactly that
message, and the conversations listing for u1 returns exactly one DM entry
for u2 whose latest message text is `hi`. -/
theorem sendHi_end_to_end :
    (sendMessage storeAB "u1" "u2" "" "hi" 1000).msg =
      some { id := "u1:u2:1000", fromUserId := "u1", toUserId := some "u2",
             groupId := none, text := "hi", timestamp := 1000 } ∧
    (sendMessage storeAB "u1" "u2" "" "hi" 1000).status = 200 ∧
    getMessages (sendMessage storeAB "u1" "u2" "" "hi" 1000).store "u1" "u2" =
      [msgHi] ∧
    getConversations (sendMessage storeAB "u1" "u2" "" "hi" 1000).store "u1" =
      [ConvEntry.dm "u2" "Bob" "u2@example.com" "hi" 1000] := by
  decide

/-- C8: for every non-empty email the reset-password response is the one
generic success body, independent of the provider outcome (in particular
of whether an account with that email exists): two runs differing only in
that outcome produce identical responses. -/
theorem resetPassword_anti_enumeration (email : String) (h : email ≠ "")
    (e1 e2 : Bool) :
    resetPassword email e1 = resetPassword email e2 ∧
    (resetPassword email e1).status = 200 ∧
    (resetPassword email e1).success = true ∧
    (resetPassword email e1).message =
      "If an account exists, a password reset email has been sent" := by
  have h' : (email == "") = false := beq_eq_false_iff_ne.mpr h
  cases e1 <;> cases e2 <;> simp [resetPassword, h']

/-- C8 witness: concrete instance with the provider succeeding in one run
and failing in the other. -/
theorem resetPassword_anti_enumeration_witness :
    resetPassword "a@b.example" true = resetPassword "a@b.example" false ∧
    (resetPassword "a@b.example" true).status = 200 ∧
    (resetPassword "a@b.example" true).success = true ∧
    (resetPassword "a@b.example" true).message =
      "If an account exists, a password reset email has been sent" :=
  resetPassword_anti_enumeration "a@b.example" (by decide) true false

/-- C9: for a target id with the `group_` prefix the messages handler
performs no membership check: any two callers receive the identical list,
which is the full store filtered on that groupId alone, sorted ascending
by timestamp. -/
theorem group_listing_ignores_caller (s : Store) (g x y : String)
    (hg : strStartsWith g "group_" = true) :
    getMessages s x g = getMessages s y g ∧
    getMessages s x g =
      sortAsc (s.messages.filter (fun m => m.groupId == some g)) ∧
    List.Sorted tsLe (getMessages s x g) := by
  have hx : getMessages s x g =
      sortAsc (s.messages.filter (fun m => m.groupId == some g)) := by
    simp [getMessages, hg]
  have hy : getMessages s y g =
      sortAsc (s.messages.filter (fun m => m.groupId == some g)) := by
    simp [getMessages, hg]
  exact ⟨hx.trans hy.symm, hx, hx ▸ List.sorted_insertionSort tsLe _⟩

/-- C9 witness: two different callers, one a member of nothing, on a store
holding one group message. -/
theorem group_listing_ignores_caller_witness :
    getMessages storeGm "outsiderA" "group_9" =
      getMessages storeGm "outsiderB" "group_9" ∧
    getMessages storeGm "outsiderA" "group_9" =
      sortAsc (storeGm.messages.filter (fun m => m.groupId == some "group_9")) ∧
    List.Sorted tsLe (getMessages storeGm "outsiderA" "group_9") :=
  group_listing_ignores_caller storeGm "group_9" "outsiderA" "outsiderB"
    (by decide)

/-- C10: send-message never checks that its target exists: any body with
non-empty text and a non-empty recipient or group field is stored with a
200 response, for every store (in particular stores in which the target
does not exist); the handler never returns 404, and 400 is returned
exactly when the text is missing or both target fields are missing. -/
theorem sendMessage_no_target_validation (s : Store)
    (uid toUserId groupId text : String) (ts : Nat) :
    ((text ≠ "" ∧ (toUserId ≠ "" ∨ groupId ≠ "")) →
      (sendMessage s uid toUserId groupId text ts).status = 200 ∧
      ∃ m, (sendMessage s uid toUserId groupId text ts).msg = some m ∧
        m ∈ (sendMessage s uid toUserId groupId text ts).store.messages) ∧
    ((sendMessage s uid toUserId groupId text ts).status = 400 ↔
      (text = "" ∨ (toUserId = "" ∧ groupId = ""))) ∧
    (sendMessage s uid toUserId groupId text ts).status ≠ 404 := by
  by_cases hcond :
      ((toUserId == "" && groupId == "") || text == "") = true
  · have hc : (text = "" ∨ (toUserId = "" ∧ groupId = "")) := by
      rcases Bool.or_eq_true_iff.mp hcond with h | h
      · exact Or.inr ⟨by simpa using (Bool.and_eq_true_iff.mp h).1,
          by simpa using (Bool.and_eq_true_iff.mp h).2⟩
      · exact Or.inl (by simpa using h)
    refine ⟨?_, ?_, ?_⟩
    · rintro ⟨htext, htarget⟩
      rcases hc with h | h
      · exact absurd h htext
      · rcases htarget with h' | h'
        · exact absurd h.1 h'
        · exact absurd h.2 h'
    · simp only [sendMessage, hcond, if_true]
      exact ⟨fun _ => hc, fun _ => by trivial⟩
    · simp [sendMessage, hcond]
  · have hc : ¬ (text = "" ∨ (toUserId = "" ∧ groupId = "")) := by
      simp only [Bool.or_eq_true_iff, Bool.and_eq_true_iff, beq_iff_eq,
        not_or] at hcond ⊢
      tauto
    have hcond' : ((toUserId == "" && groupId == "") || text == "") = false :=
      Bool.not_eq_true _ ▸ Bool.eq_false_iff.mpr hcond
    refine ⟨?_, ?_, ?_⟩
    · intro _
      by_cases hgrp : (groupId != "") = true
      · simp only [sendMessage, hcond', hgrp, Bool.false_eq_true, if_false,
          if_true]
        exact ⟨by trivial, _, rfl, mem_setMessage_self _ _⟩
      · have hgrp' : (groupId != "") = false := Bool.eq_false_iff.mpr hgrp
        simp only [sendMessage, hcond', hgrp', Bool.false_eq_true, if_false,
          if_true]
        refine ⟨by trivial, _, rfl, ?_⟩
        split <;> split <;> exact mem_setMessage_self _ _
    · constructor
      · intro h400
        by_cases hgrp : (groupId != "") = true <;>
          simp [sendMessage, hcond', hgrp] at h400
      · intro h
        exact absurd h hc
    · by_cases hgrp : (groupId != "") = true <;>
        simp [sendMessage, hcond', hgrp]

/-- C10 witness: a valid body addressed to a user id that exists in no
store record is stored with a 200 response. -/
theorem sendMessage_no_target_validation_witness :
    (sendMessage storeAB "u1" "ghost" "" "hello" 7).status = 200 :=
  ((sendMessage_no_target_validation storeAB "u1" "ghost" "" "hello" 7).1
    ⟨by decide, Or.inl (by decide)⟩).1

/-- C3 counterexample: creating a group as u1 with the duplicated member
list `[u2, u2]` stores memberIds `[u1, u2, u2]`, which contains a
duplicate — the handler removes the creator from the request list but does
not deduplicate it. -/
theorem createGroup_duplicate_members :
    (createGroup storeAB "u1" "Team" ["u2", "u2"] "group_1" 5).group.map
      Group.memberIds = some ["u1", "u2", "u2"] ∧
    ¬ (["u1", "u2", "u2"] : List String).Nodup := by
  decide

/-- C3 amended: the stored member list is always the creator followed by
the request list with the creator filtered out (creator first); it is
duplicate-free whenever the request list itself is duplicate-free. -/
theorem createGroup_members_creator_first (s : Store) (uid name gid : String)
    (memberIds : List String) (ts : Nat) (hname : name ≠ "")
    (hnd : memberIds.Nodup) :
    (createGroup s uid name memberIds gid ts).status = 200 ∧
    ∃ g, (createGroup s uid name memberIds gid ts).group = some g ∧
      g.memberIds = uid :: memberIds.filter (fun i => i != uid) ∧
      g.memberIds.head? = some uid ∧
      g.memberIds.Nodup := by
  have h' : (name == "") = false := beq_eq_false_iff_ne.mpr hname
  simp only [createGroup, h', Bool.false_eq_true, if_false]
  refine ⟨by trivial, _, rfl, rfl, rfl, ?_⟩
  refine List.Nodup.cons ?_ (hnd.filter _)
  intro hmem
  have := (List.mem_filter.mp hmem).2
  simp at this

/-- C3 amended witness: a duplicate-free request list yields a
duplicate-free stored member list with the creator first. -/
theorem createGroup_members_creator_first_witness :
    (createGroup storeAB "u1" "Team" ["u2", "u3"] "group_1" 5).status
      = 200 ∧
    (createGroup storeAB "u1" "Team" ["u2", "u3"] "group_1" 5).group.map
      Group.memberIds = some ["u1", "u2", "u3"] := by
  obtain ⟨hs, g, hg, hm, -, -⟩ :=
    createGroup_members_creator_first storeAB "u1" "Team" "group_1"
      ["u2", "u3"] 5 (by decide) (by decide)
  refine ⟨hs, ?_⟩
  rw [hg, Option.map_some', hm]
  decide

/-- An account on the administrator allow-list. -/
def adminRec : UserRec := ⟨"ua", "lichengantv@gmail.com", "Root"⟩

/-- A non-admin user and an admin user, no messages. -/
def storeAdm : Store := ⟨[aliceRec, adminRec], [], [], [], []⟩

theorem cascadeDeleteUser_messages (s : Store) (uid : String) :
    (cascadeDeleteUser s uid).messages = s.messages.filter (fun m =>
      !(m.fromUserId == uid || m.toUserId == some uid)) := rfl

/-- C2 counterexample: storeGm holds one group message sent by u1; the
admin cascade delete of u1 succeeds and removes that group message from
the store, so group messages sent by a deleted user are NOT left
unchanged. -/
theorem deleteUser_removes_group_message :
    gmsgU1 ∈ storeGm.messages ∧ gmsgU1.groupId = some "group_9" ∧
    gmsgU1.fromUserId = "u1" ∧
    (adminDeleteUser storeGm "admin1" "lichengantv@gmail.com" "u1").status
      = 200 ∧
    gmsgU1 ∉
      (adminDeleteUser storeGm "admin1" "lichengantv@gmail.com"
        "u1").store.messages := by
  decide

/-- C2 amended: a successful user deletion (admin cascade delete or
self-service account delete) deletes exactly the messages in which the
user is the sender — group messages included — or the direct recipient,
and leaves every other message unchanged. -/
theorem deleteUser_message_scope (s : Store)
    (callerId callerEmail uid password : String) (pok : Bool) :
    ((adminDeleteUser s callerId callerEmail uid).status = 200 →
      (adminDeleteUser s callerId callerEmail uid).store.messages =
        s.messages.filter (fun m =>
          !(m.fromUserId == uid || m.toUserId == some uid))) ∧
    ((deleteAccount s uid password pok).status = 200 →
      (deleteAccount s uid password pok).store.messages =
        s.messages.filter (fun m =>
          !(m.fromUserId == uid || m.toUserId == some uid))) := by
  constructor
  · unfold adminDeleteUser
    split
    · intro h; simp at h
    · split
      · intro h; simp at h
      · split
        · intro h; simp at h
        · split
          · intro h; simp at h
          · intro _; exact cascadeDeleteUser_messages s uid
  · unfold deleteAccount
    split
    · intro h; simp at h
    · split
      · intro h; simp at h
      · intro _; exact cascadeDeleteUser_messages s uid

/-- C2 amended witness: deleting u1 from storeGm removes its group
message (the filter result is empty). -/
theorem deleteUser_message_scope_witness :
    (adminDeleteUser storeGm "admin1" "lichengantv@gmail.com"
      "u1").store.messages =
    storeGm.messages.filter (fun m =>
      !(m.fromUserId == "u1" || m.toUserId == some "u1")) :=
  (deleteUser_message_scope storeGm "admin1" "lichengantv@gmail.com" "u1"
    "pw" true).1 (by decide)

/-- C7: for an admin caller, deleting an existing non-admin target other
than oneself returns 200; deleting oneself returns 400 with the store
unmodified; deleting a target whose email is on the administrator
allow-list returns 400 with the store unmodified. -/
theorem adminDeleteUser_guards (s : Store) (callerId callerEmail uid : String)
    (hadmin : isAdmin callerEmail = true) :
    (∀ t, uid ≠ callerId → findUser s uid = some t →
      isAdmin t.email = false →
      (adminDeleteUser s callerId callerEmail uid).status = 200) ∧
    (uid = callerId →
      (adminDeleteUser s callerId callerEmail uid).status = 400 ∧
      (adminDeleteUser s callerId callerEmail uid).store = s) ∧
    (∀ t, findUser s uid = some t → isAdmin t.email = true →
      (adminDeleteUser s callerId callerEmail uid).status = 400 ∧
      (adminDeleteUser s callerId callerEmail uid).store = s) := by
  refine ⟨?_, ?_, ?_⟩
  · intro t hne hfind hnadmin
    have hne' : (uid == callerId) = false := beq_eq_false_iff_ne.mpr hne
    simp [adminDeleteUser, hadmin, hne', hfind, hnadmin]
  · intro heq
    have h1 : (uid == callerId) = true := beq_iff_eq.mpr heq
    constructor <;> simp [adminDeleteUser, hadmin, h1]
  · intro t hfind htadmin
    by_cases heq : uid = callerId
    · have h1 : (uid == callerId) = true := beq_iff_eq.mpr heq
      constructor <;> simp [adminDeleteUser, hadmin, h1]
    · have h1 : (uid == callerId) = false := beq_eq_false_iff_ne.mpr heq
      constructor <;> simp [adminDeleteUser, hadmin, h1, hfind, htadmin]

/-- C7 witness: on a store with a non-admin user u1 and an admin user ua,
the admin caller gets 200 deleting u1, 400 (store unchanged) deleting
itself, and 400 (store unchanged) deleting ua. -/
theorem adminDeleteUser_guards_witness :
    (adminDeleteUser storeAdm "admin1" "lichengantv@gmail.com" "u1").status
      = 200 ∧
    ((adminDeleteUser storeAdm "admin1" "lichengantv@gmail.com"
        "admin1").status = 400 ∧
      (adminDeleteUser storeAdm "admin1" "lichengantv@gmail.com"
        "admin1").store = storeAdm) ∧
    ((adminDeleteUser storeAdm "admin1" "lichengantv@gmail.com"
        "ua").status = 400 ∧
      (adminDeleteUser storeAdm "admin1" "lichengantv@gmail.com"
        "ua").store = storeAdm) :=
  ⟨(adminDeleteUser_guards storeAdm "admin1" "lichengantv@gmail.com" "u1"
      (by decide)).1 aliceRec (by decide) (by decide) (by decide),
   (adminDeleteUser_guards storeAdm "admin1" "lichengantv@gmail.com"
      "admin1" (by decide)).2.1 rfl,
   (adminDeleteUser_guards storeAdm "admin1" "lichengantv@gmail.com" "ua"
      (by decide)).2.2 adminRec (by decide) (by decide)⟩

/-! Association-list lemmas for `setEntry`. -/

theorem find_replace_self (l : List (String × List String)) (k : String)
    (v : List String) (h : l.any (fun p => p.fst == k) = true) :
    (l.map (fun p => if p.fst == k then (k, v) else p)).find?
      (fun p => p.fst == k) = some (k, v) := by
  induction l with
  | nil => simp at h
  | cons p t ih =>
    by_cases hp : (p.fst == k) = true
    · have hrep : (if p.fst == k then (k, v) else p) = (k, v) := by
        simp [hp]
      rw [List.map_cons, hrep]
      exact List.find?_cons_of_pos _ (by simp)
    · have hp' : (p.fst == k) = false := Bool.eq_false_iff.mpr hp
      have ht : t.any (fun p => p.fst == k) = true := by
        rcases List.any_eq_true.mp h with ⟨x, hx, hxk⟩
        rcases List.mem_cons.mp hx with hx' | hx'
        · exact absurd (hx' ▸ hxk) hp
        · exact List.any_eq_true.mpr ⟨x, hx', hxk⟩
      have hrep : (if p.fst == k then (k, v) else p) = p := by simp [hp']
      rw [List.map_cons, hrep, List.find?_cons_of_neg _ (by simp [hp'])]
      exact ih ht

theorem find_replace_ne (l : List (String × List String)) (k k' : String)
    (v : List String) (hne : k' ≠ k) :
    (l.map (fun p => if p.fst == k then (k, v) else p)).find?
      (fun p => p.fst == k') = l.find? (fun p => p.fst == k') := by
  have hkk : ((k, v).fst == k') = false :=
    beq_eq_false_iff_ne.mpr (fun h => hne h.symm)
  induction l with
  | nil => rfl
  | cons p t ih =>
    by_cases hp : (p.fst == k) = true
    · have hrep : (if p.fst == k then (k, v) else p) = (k, v) := by
        simp [hp]
      have hpk : p.fst = k := by simpa using hp
      have hp2 : (p.fst == k') = false := by
        rw [hpk]; exact hkk
      rw [List.map_cons, hrep, List.find?_cons_of_neg _ (by simp_all),
        List.find?_cons_of_neg _ (by simp [hp2])]
      exact ih
    · have hp' : (p.fst == k) = false := Bool.eq_false_iff.mpr hp
      have hrep : (if p.fst == k then (k, v) else p) = p := by simp [hp']
      by_cases hq : (p.fst == k') = true
      · rw [List.map_cons, hrep,
          @List.find?_cons_of_pos _ (fun q => q.fst == k') p
            (t.map (fun q => if q.fst == k then (k, v) else q)) hq,
          @List.find?_cons_of_pos _ (fun q => q.fst == k') p t hq]
      · rw [List.map_cons, hrep,
          @List.find?_cons_of_neg _ (fun q => q.fst == k') p
            (t.map (fun q => if q.fst == k then (k, v) else q)) hq,
          @List.find?_cons_of_neg _ (fun q => q.fst == k') p t hq]
        exact ih

theorem findEntry_setEntry_self (l : List (String × List String))
    (k : String) (v : List String) :
    findEntry (setEntry l k v) k = some v := by
  unfold setEntry findEntry
  split
  · rename_i h
    rw [find_replace_self l k v h]
    rfl
  · rename_i h
    have hnone : l.find? (fun p => p.fst == k) = none := by
      rw [List.find?_eq_none]
      intro x hx hxk
      exact absurd (List.any_eq_true.mpr ⟨x, hx, hxk⟩) h
    have hone : List.find? (fun p => p.fst == k) [(k, v)] = some (k, v) :=
      @List.find?_cons_of_pos _ (fun p => p.fst == k) (k, v) [] (by simp)
    rw [List.find?_append, hnone, Option.none_or, hone]
    rfl

theorem findEntry_setEntry_ne (l : List (String × List String))
    (k k' : String) (v : List String) (hne : k' ≠ k) :
    findEntry (setEntry l k v) k' = findEntry l k' := by
  have hkk : ((k, v).fst == k') = false :=
    beq_eq_false_iff_ne.mpr (fun h => hne h.symm)
  unfold setEntry findEntry
  split
  · rw [find_replace_ne l k k' v hne]
  · rw [List.find?_append, List.find?_cons_of_neg _ (by simp_all),
      List.find?_nil]
    cases l.find? (fun p => p.fst == k') <;> rfl

theorem getEntryD_setEntry_self (l : List (String × List String))
    (k : String) (v : List String) :
    getEntryD (setEntry l k v) k = v := by
  simp [getEntryD, findEntry_setEntry_self]

theorem getEntryD_setEntry_ne (l : List (String × List String))
    (k k' : String) (v : List String) (hne : k' ≠ k) :
    getEntryD (setEntry l k v) k' = getEntryD l k' := by
  simp [getEntryD, findEntry_setEntry_ne l k k' v hne]

/-- C6: for two non-group target ids the DM listing is the same whichever
of the two ids is the caller and whichever is the target, and it is sorted
ascending by timestamp. -/
theorem dm_listing_symmetric (s : Store) (A B : String)
    (hA : strStartsWith A "group_" = false)
    (hB : strStartsWith B "group_" = false) :
    getMessages s A B = getMessages s B A ∧
    List.Sorted tsLe (getMessages s A B) := by
  have hfilter : s.messages.filter (dmFilter A B) =
      s.messages.filter (dmFilter B A) :=
    List.filter_congr (fun m _ => Bool.or_comm _ _)
  have hAB : getMessages s A B =
      sortAsc (s.messages.filter (dmFilter A B)) := by
    simp [getMessages, hB]
  have hBA : getMessages s B A =
      sortAsc (s.messages.filter (dmFilter B A)) := by
    simp [getMessages, hA]
  refine ⟨?_, ?_⟩
  · rw [hAB, hBA, hfilter]
  · rw [hAB]
    exact List.sorted_insertionSort tsLe _

/-- A DM between u1 and u2 sitting in a store with both profiles. -/
def storeDm : Store :=
  ⟨[aliceRec, bobRec], [msgHi], [], [("u1", ["u2"]), ("u2", ["u1"])], []⟩

/-- C6 witness: concrete two-user store with one DM. -/
theorem dm_listing_symmetric_witness :
    getMessages storeDm "u1" "u2" = getMessages storeDm "u2" "u1" ∧
    List.Sorted tsLe (getMessages storeDm "u1" "u2") :=
  dm_listing_symmetric storeDm "u1" "u2" (by decide) (by decide)

/-! Lemmas about the member loop of group deletion. -/

theorem removeGroupFromMember_messages (gid : String) (st : Store)
    (memberId : String) :
    (removeGroupFromMember gid st memberId).messages = st.messages := by
  unfold removeGroupFromMember
  split <;> rfl

theorem foldl_removeGroupFromMember_messages (gid : String)
    (members : List String) (st : Store) :
    (members.foldl (removeGroupFromMember gid) st).messages = st.messages := by
  induction members generalizing st with
  | nil => rfl
  | cons m ms ih =>
    rw [List.foldl_cons, ih, removeGroupFromMember_messages]

theorem removeGroupFromMember_clears (gid : String) (st : Store)
    (memberId : String) :
    gid ∉ getEntryD (removeGroupFromMember gid st memberId).userGroups
      memberId := by
  unfold removeGroupFromMember
  cases hf : findEntry st.userGroups memberId with
  | none =>
    simp [getEntryD, hf]
  | some memberGroups =>
    simp only [getEntryD_setEntry_self]
    intro hmem
    have := (List.mem_filter.mp hmem).2
    simp at this

theorem removeGroupFromMember_preserves (gid : String) (st : Store)
    (memberId v : String)
    (h : gid ∉ getEntryD st.userGroups v) :
    gid ∉ getEntryD (removeGroupFromMember gid st memberId).userGroups v := by
  unfold removeGroupFromMember
  cases hf : findEntry st.userGroups memberId with
  | none => exact h
  | some memberGroups =>
    by_cases hv : v = memberId
    · subst hv
      simp only [getEntryD_setEntry_self]
      intro hmem
      have := (List.mem_filter.mp hmem).2
      simp at this
    · simpa [getEntryD_setEntry_ne _ _ _ _ hv] using h

theorem foldl_removeGroupFromMember_preserves (gid : String)
    (members : List String) (st : Store) (v : String)
    (h : gid ∉ getEntryD st.userGroups v) :
    gid ∉ getEntryD
      ((members.foldl (removeGroupFromMember gid) st)).userGroups v := by
  induction members generalizing st with
  | nil => exact h
  | cons m ms ih =>
    rw [List.foldl_cons]
    exact ih _ (removeGroupFromMember_preserves gid st m v h)

theorem foldl_removeGroupFromMember_clears (gid : String)
    (members : List String) (st : Store) :
    ∀ u ∈ members,
      gid ∉ getEntryD
        ((members.foldl (removeGroupFromMember gid) st)).userGroups u := by
  induction members generalizing st with
  | nil => intro u hu; simp at hu
  | cons m ms ih =>
    intro u hu
    rw [List.foldl_cons]
    rcases List.mem_cons.mp hu with hu | hu
    · subst hu
      exact foldl_removeGroupFromMember_preserves gid ms _ u
        (removeGroupFromMember_clears gid st u)
    · exact ih _ u hu

/-- C5: a successful admin group deletion removes the group id from every
member's group-index entry, removes every message carrying that groupId,
and makes any subsequent group-message listing of that id return the empty
list. -/
theorem adminDeleteGroup_cascade (s : Store) (callerEmail gid : String)
    (g : Group) (hadmin : isAdmin callerEmail = true)
    (hfound : findGroup s gid = some g) :
    (adminDeleteGroup s callerEmail gid).status = 200 ∧
    (∀ u ∈ g.memberIds,
      gid ∉ getEntryD
        (adminDeleteGroup s callerEmail gid).store.userGroups u) ∧
    (∀ m ∈ (adminDeleteGroup s callerEmail gid).store.messages,
      m.groupId ≠ some gid) ∧
    (strStartsWith gid "group_" = true →
      ∀ x, getMessages (adminDeleteGroup s callerEmail gid).store x gid
        = []) := by
  have hmsg : ∀ m ∈ (adminDeleteGroup s callerEmail gid).store.messages,
      m.groupId ≠ some gid := by
    simp only [adminDeleteGroup, hadmin, Bool.not_true, Bool.false_eq_true,
      if_false, hfound]
    intro m hm
    have := (List.mem_filter.mp hm).2
    simpa using this
  refine ⟨?_, ?_, hmsg, ?_⟩
  · simp [adminDeleteGroup, hadmin, hfound]
  · simp only [adminDeleteGroup, hadmin, Bool.not_true, Bool.false_eq_true,
      if_false, hfound]
    exact foldl_removeGroupFromMember_clears gid g.memberIds _
  · intro hgid x
    have hnil : (adminDeleteGroup s callerEmail
        gid).store.messages.filter (fun m => m.groupId == some gid) = [] := by
      rw [List.filter_eq_nil_iff]
      intro m hm
      simpa using hmsg m hm
    simp [getMessages, hgid, hnil, sortAsc]

/-- Group used by the C5 witness. -/
def grpW : Group := ⟨"group_7", "Team", ["u1", "u2"], "u1", 3⟩

/-- A group message inside group_7. -/
def gmsg7 : Message := ⟨"u1:group_7:4", "u1", none, some "group_7", "hey", 4⟩

/-- Store with group_7, its two members' index entries, and one group
message. -/
def storeGrp : Store :=
  ⟨[aliceRec, bobRec], [gmsg7], [grpW], [],
    [("u1", ["group_7"]), ("u2", ["group_7"])]⟩

/-- C5 witness: deleting group_7 empties u1's group index of it and makes
the group listing empty. -/
theorem adminDeleteGroup_cascade_witness :
    (adminDeleteGroup storeGrp "lichengantv@gmail.com" "group_7").status
      = 200 ∧
    "group_7" ∉ getEntryD
      (adminDeleteGroup storeGrp "lichengantv@gmail.com"
        "group_7").store.userGroups "u1" ∧
    getMessages
      (adminDeleteGroup storeGrp "lichengantv@gmail.com" "group_7").store
      "u2" "group_7" = [] :=
  ⟨(adminDeleteGroup_cascade storeGrp "lichengantv@gmail.com" "group_7"
      grpW (by decide) (by decide)).1,
   (adminDeleteGroup_cascade storeGrp "lichengantv@gmail.com" "group_7"
      grpW (by decide) (by decide)).2.1 "u1" (by decide),
   (adminDeleteGroup_cascade storeGrp "lichengantv@gmail.com" "group_7"
      grpW (by decide) (by decide)).2.2.2 (by decide) "u2"⟩

/-! Lemmas for the DM conversation-index update of send-message. -/

theorem sendMessage_dm_conversations (s : Store) (A B text : String)
    (ts : Nat) (hB : (B == "") = false) (htext : (text == "") = false) :
    (sendMessage s A B "" text ts).store.conversations =
      (if A ∈ getEntryD s.conversations B then
         (if B ∈ getEntryD s.conversations A then s.conversations
          else setEntry s.conversations A
            (getEntryD s.conversations A ++ [B]))
       else
         setEntry
           (if B ∈ getEntryD s.conversations A then s.conversations
            else setEntry s.conversations A
              (getEntryD s.conversations A ++ [B]))
           B (getEntryD s.conversations B ++ [A])) := by
  have hcond : ((B == "" && ("" : String) == "") || text == "") = false := by
    simp [hB, htext]
  have hgrp : (("" : String) != "") = false := by decide
  simp only [sendMessage, hcond, hgrp, Bool.false_eq_true, if_false]
  by_cases hBA : B ∈ getEntryD s.conversations A <;>
    by_cases hAB : A ∈ getEntryD s.conversations B <;>
      simp [hBA, hAB]

theorem sendMessage_dm_status (s : Store) (A B text : String) (ts : Nat)
    (hB : (B == "") = false) (htext : (text == "") = false) :
    (sendMessage s A B "" text ts).status = 200 := by
  have hcond : ((B == "" && ("" : String) == "") || text == "") = false := by
    simp [hB, htext]
  have hgrp : (("" : String) != "") = false := by decide
  simp only [sendMessage, hcond, hgrp, Bool.false_eq_true, if_false]

/-- C1: a successful DM send from A to B puts B into A's conversation
index entry and A into B's entry, each occurring exactly once provided it
occurred at most once before (reachable entries are duplicate-free since
this guarded insertion is the only way ids enter an entry), and a repeated
DM send between the same pair leaves both conversation index entries — in
fact the whole conversation keyspace — unchanged. -/
theorem dm_send_symmetric_index (s : Store) (A B text text2 : String)
    (ts ts2 : Nat) (htext : text ≠ "") (hB : B ≠ "")
    (hcA : (getEntryD s.conversations A).count B ≤ 1)
    (hcB : (getEntryD s.conversations B).count A ≤ 1)
    (htext2 : text2 ≠ "") :
    (sendMessage s A B "" text ts).status = 200 ∧
    B ∈ getEntryD (sendMessage s A B "" text ts).store.conversations A ∧
    A ∈ getEntryD (sendMessage s A B "" text ts).store.conversations B ∧
    (getEntryD (sendMessage s A B "" text ts).store.conversations A).count B
      = 1 ∧
    (getEntryD (sendMessage s A B "" text ts).store.conversations B).count A
      = 1 ∧
    (sendMessage (sendMessage s A B "" text ts).store A B "" text2
        ts2).store.conversations =
      (sendMessage s A B "" text ts).store.conversations := by
  have hB' : (B == "") = false := beq_eq_false_iff_ne.mpr hB
  have htext' : (text == "") = false := beq_eq_false_iff_ne.mpr htext
  have htext2' : (text2 == "") = false := beq_eq_false_iff_ne.mpr htext2
  have hconv := sendMessage_dm_conversations s A B text ts hB' htext'
  have hmain :
      B ∈ getEntryD (sendMessage s A B "" text ts).store.conversations A ∧
      A ∈ getEntryD (sendMessage s A B "" text ts).store.conversations B ∧
      (getEntryD (sendMessage s A B "" text ts).store.conversations A).count
        B = 1 ∧
      (getEntryD (sendMessage s A B "" text ts).store.conversations B).count
        A = 1 := by
    by_cases hBA : B ∈ getEntryD s.conversations A
    · by_cases hAB : A ∈ getEntryD s.conversations B
      · rw [hconv, if_pos hAB, if_pos hBA]
        exact ⟨hBA, hAB,
          Nat.le_antisymm hcA (List.count_pos_iff.mpr hBA),
          Nat.le_antisymm hcB (List.count_pos_iff.mpr hAB)⟩
      · have hne : A ≠ B := by
          intro h
          subst h
          exact hAB hBA
        rw [hconv, if_neg hAB, if_pos hBA]
        refine ⟨?_, ?_, ?_, ?_⟩
        · rw [getEntryD_setEntry_ne _ _ _ _ hne]
          exact hBA
        · rw [getEntryD_setEntry_self]
          exact List.mem_append_right _ (by simp)
        · rw [getEntryD_setEntry_ne _ _ _ _ hne]
          exact Nat.le_antisymm hcA (List.count_pos_iff.mpr hBA)
        · rw [getEntryD_setEntry_self, List.count_append,
            List.count_eq_zero.mpr hAB, List.count_singleton]
          simp
    · by_cases hAB : A ∈ getEntryD s.conversations B
      · have hne : B ≠ A := by
          intro h
          subst h
          exact hBA hAB
        rw [hconv, if_pos hAB, if_neg hBA]
        refine ⟨?_, ?_, ?_, ?_⟩
        · rw [getEntryD_setEntry_self]
          exact List.mem_append_right _ (by simp)
        · rw [getEntryD_setEntry_ne _ _ _ _ hne]
          exact hAB
        · rw [getEntryD_setEntry_self, List.count_append,
            List.count_eq_zero.mpr hBA, List.count_singleton]
          simp
        · rw [getEntryD_setEntry_ne _ _ _ _ hne]
          exact Nat.le_antisymm hcB (List.count_pos_iff.mpr hAB)
      · rw [hconv, if_neg hAB, if_neg hBA]
        by_cases heq : A = B
        · subst heq
          refine ⟨?_, ?_, ?_, ?_⟩ <;> rw [getEntryD_setEntry_self]
          · exact List.mem_append_right _ (by simp)
          · exact List.mem_append_right _ (by simp)
          · rw [List.count_append, List.count_eq_zero.mpr hAB,
              List.count_singleton]
            simp
          · rw [List.count_append, List.count_eq_zero.mpr hAB,
              List.count_singleton]
            simp
        · refine ⟨?_, ?_, ?_, ?_⟩
          · rw [getEntryD_setEntry_ne _ _ _ _ heq, getEntryD_setEntry_self]
            exact List.mem_append_right _ (by simp)
          · rw [getEntryD_setEntry_self]
            exact List.mem_append_right _ (by simp)
          · rw [getEntryD_setEntry_ne _ _ _ _ heq, getEntryD_setEntry_self,
              List.count_append, List.count_eq_zero.mpr hBA,
              List.count_singleton]
            simp
          · rw [getEntryD_setEntry_self, List.count_append,
              List.count_eq_zero.mpr hAB, List.count_singleton]
            simp
  obtain ⟨hmemA, hmemB, hc1, hc2⟩ := hmain
  refine ⟨sendMessage_dm_status s A B text ts hB' htext', hmemA, hmemB,
    hc1, hc2, ?_⟩
  rw [sendMessage_dm_conversations _ A B text2 ts2 hB' htext2',
    if_pos hmemB, if_pos hmemA]

/-- C1 witness: u1 DMs u2 twice in a fresh store; after the first send
each index entry holds the peer exactly once, and the second send leaves
the conversation index unchanged. -/
theorem dm_send_symmetric_index_witness :
    (sendMessage storeAB "u1" "u2" "" "hi" 1000).status = 200 ∧
    "u2" ∈ getEntryD
      (sendMessage storeAB "u1" "u2" "" "hi" 1000).store.conversations
      "u1" ∧
    "u1" ∈ getEntryD
      (sendMessage storeAB "u1" "u2" "" "hi" 1000).store.conversations
      "u2" ∧
    (getEntryD
      (sendMessage storeAB "u1" "u2" "" "hi" 1000).store.conversations
      "u1").count "u2" = 1 ∧
    (getEntryD
      (sendMessage storeAB "u1" "u2" "" "hi" 1000).store.conversations
      "u2").count "u1" = 1 ∧
    (sendMessage (sendMessage storeAB "u1" "u2" "" "hi" 1000).store "u1"
        "u2" "" "again" 2000).store.conversations =
      (sendMessage storeAB "u1" "u2" "" "hi" 1000).store.conversations :=
  dm_send_symmetric_index storeAB "u1" "u2" "hi" "again" 1000 2000
    (by decide) (by decide) (by decide) (by decide) (by decide)

end Chatboxxer
